import Mathlib

/-!
Verification of the Alumet measurement-pipeline core against its source.

The development shallowly embeds the Rust code of the repository:
`MetricRegistry`, `ElementRegistry` (src/alumet/src/pipeline/registry.rs),
the `K8SProbe` source (src/plugin-k8s/src/k8s_probe.rs), and the
`CounterDiff` helper (whose implementation file is absent from the sources;
it is modelled from the specification, as marked on its definitions).

Rust `HashMap`s are modelled as association lists whose `insert` replaces
the value of an existing key and otherwise appends; `get`, `insert` and
`len` then have the observable behaviour of the hash map.  Machine
integers (`usize`, `u64`) are modelled as `Nat`; the registry only ever
uses them as identifiers and the counter arithmetic never overflows on
the inputs the claims concern.
-/

/-- Measurement value type of a metric; the source uses the two variants
`U64` and `F64` of `WrappedMeasurementType`. -/
inductive WrappedMeasurementType where
  | U64
  | F64
deriving DecidableEq, Repr

namespace units

/-- Base measurement unit.  Only the variants exercised by the registry
code and its tests are modelled. -/
inductive Unit where
  | Second
  | Watt
  | Joule
  | Unity
deriving DecidableEq, Repr

end units

/-- Untyped metric id: `UntypedMetricId(pub usize)` in the source, a dense
small integer. -/
structure UntypedMetricId where
  id : Nat
deriving DecidableEq, Repr

/-- Metric descriptor, with the fields the registry stores at creation. -/
structure Metric where
  id : UntypedMetricId
  name : String
  description : String
  value_type : WrappedMeasurementType
  unit : units.Unit
deriving DecidableEq, Repr

/-- Error returned by `create_metric` on a duplicate name. -/
structure MetricCreationError where
  key : String
deriving DecidableEq, Repr

/-- Constructor `MetricCreationError::new`. -/
def MetricCreationError.new (metric_name : String) : MetricCreationError :=
  { key := metric_name }

/-- Lookup in an association list, the model of `HashMap::get`. -/
def lookupA {α β : Type} [DecidableEq α] : List (α × β) → α → Option β
  | [], _ => none
  | (k, v) :: rest, key => if key = k then some v else lookupA rest key

/-- Insertion into an association list, the model of `HashMap::insert`:
replaces the value of an existing key, otherwise appends the new pair. -/
def insertA {α β : Type} [DecidableEq α] : List (α × β) → α → β → List (α × β)
  | [], key, val => [(key, val)]
  | (k, v) :: rest, key, val =>
      if key = k then (key, val) :: rest else (k, v) :: insertA rest key val

@[simp]
theorem lookupA_nil {α β : Type} [DecidableEq α] (key : α) :
    lookupA ([] : List (α × β)) key = none := rfl

@[simp]
theorem lookupA_cons {α β : Type} [DecidableEq α] (k : α) (v : β) (rest : List (α × β)) (key : α) :
    lookupA ((k, v) :: rest) key = if key = k then some v else lookupA rest key := rfl

@[simp]
theorem insertA_nil {α β : Type} [DecidableEq α] (key : α) (val : β) :
    insertA ([] : List (α × β)) key val = [(key, val)] := rfl

@[simp]
theorem insertA_cons {α β : Type} [DecidableEq α] (k : α) (v : β) (rest : List (α × β))
    (key : α) (val : β) :
    insertA ((k, v) :: rest) key val =
      if key = k then (key, val) :: rest else (k, v) :: insertA rest key val := rfl

/-- When the key is absent, `insertA` appends the new pair at the end. -/
theorem insertA_of_not_mem {α β : Type} [DecidableEq α] (m : List (α × β)) (key : α) (val : β)
    (h : lookupA m key = none) : insertA m key val = m ++ [(key, val)] := by
  induction m with
  | nil => rfl
  | cons hd tl ih =>
      obtain ⟨k, v⟩ := hd
      by_cases hk : key = k
      · simp [hk] at h
      · simp [hk] at h ⊢
        exact ih h

/-- Appending pairs with fresh keys does not change existing lookups. -/
theorem lookupA_append_of_ne {α β : Type} [DecidableEq α] (m : List (α × β)) (key k : α) (v : β)
    (h : key ≠ k) : lookupA (m ++ [(k, v)]) key = lookupA m key := by
  induction m with
  | nil => simp [lookupA, h]
  | cons hd tl ih =>
      obtain ⟨k', v'⟩ := hd
      by_cases hk : key = k'
      · simp [hk]
      · simp [hk, ih]

/-- The registry of metrics: two hash maps, modelled as association
lists, as in the `MetricRegistry` struct of the source. -/
structure MetricRegistry where
  metrics_by_id : List (UntypedMetricId × Metric)
  metrics_by_name : List (String × UntypedMetricId)
deriving DecidableEq, Repr

namespace MetricRegistry

/-- Constructor `MetricRegistry::new`: both maps empty. -/
def new : MetricRegistry :=
  { metrics_by_id := [], metrics_by_name := [] }

/-- Accessor `with_id`: the metric stored under the given id. -/
def with_id (r : MetricRegistry) (id : UntypedMetricId) : Option Metric :=
  lookupA r.metrics_by_id id

/-- Accessor `with_name`: resolves the name to an id, then the id to a
descriptor. -/
def with_name (r : MetricRegistry) (name : String) : Option Metric :=
  (lookupA r.metrics_by_name name).bind (fun id => lookupA r.metrics_by_id id)

/-- The number of registered metrics (`len` delegates to the by-id map). -/
def len (r : MetricRegistry) : Nat :=
  r.metrics_by_id.length

/-- Operation `create_metric`: rejects a duplicate name without touching
the state; otherwise allocates id `metrics_by_id.len()`, stores the
descriptor and indexes it by name.  State passing replaces `&mut self`. -/
def create_metric (r : MetricRegistry) (name : String)
    (value_type : WrappedMeasurementType) (unit : units.Unit) (description : String) :
    MetricRegistry × Except MetricCreationError UntypedMetricId :=
  match lookupA r.metrics_by_name name with
  | some _ =>
      (r, Except.error (MetricCreationError.new
            ("A metric with this name already exist: " ++ name)))
  | none =>
      let id : UntypedMetricId := ⟨r.metrics_by_id.length⟩
      let m : Metric :=
        { id := id, name := name, description := description,
          value_type := value_type, unit := unit }
      ({ metrics_by_name := insertA r.metrics_by_name name id,
         metrics_by_id := insertA r.metrics_by_id id m },
       Except.ok id)

end MetricRegistry

/-- Model of the `GLOBAL_METRICS: OnceLock<MetricRegistry>` cell: `none`
before publication, `some` afterwards. -/
def GlobalCell : Type := Option MetricRegistry

/-- Operation `MetricRegistry::init_global`: sets the once-cell, a hard
error (panic, modelled as `Except.error`) if it is already set. -/
def init_global (cell : GlobalCell) (reg : MetricRegistry) :
    Except String GlobalCell :=
  match cell with
  | none => Except.ok (some reg)
  | some _ => Except.error "The MetricRegistry can be initialized only once."

/-- Operation `MetricRegistry::global`: reads the once-cell, a hard error
(panic, modelled as `Except.error`) if it has not been set. -/
def globalRead (cell : GlobalCell) : Except String MetricRegistry :=
  match cell with
  | some r => Except.ok r
  | none => Except.error "The MetricRegistry must be initialized before use."

/-- The four arguments of one `create_metric` call. -/
structure MetricRequest where
  name : String
  value_type : WrappedMeasurementType
  unit : units.Unit
  description : String
deriving DecidableEq, Repr

/-- The descriptor `create_metric` builds when the request is registered
under id `i`. -/
def mkMetric (i : Nat) (req : MetricRequest) : Metric :=
  { id := ⟨i⟩, name := req.name, description := req.description,
    value_type := req.value_type, unit := req.unit }

/-- Pairs each request with its index, starting at `n`. -/
def withIdx : List MetricRequest → Nat → List (Nat × MetricRequest)
  | [], _ => []
  | r :: rs, n => (n, r) :: withIdx rs (n + 1)

/-- The by-id map of the registry after registering `reqs` in order,
first id `n`. -/
def idsMapOf (reqs : List MetricRequest) (n : Nat) : List (UntypedMetricId × Metric) :=
  (withIdx reqs n).map (fun p => (⟨p.1⟩, mkMetric p.1 p.2))

/-- The by-name map of the registry after registering `reqs` in order,
first id `n`. -/
def namesMapOf (reqs : List MetricRequest) (n : Nat) : List (String × UntypedMetricId) :=
  (withIdx reqs n).map (fun p => (p.2.name, ⟨p.1⟩))

/-- The registry reached from `new` by successfully registering `reqs` in
order. -/
def registryOf (reqs : List MetricRequest) : MetricRegistry :=
  { metrics_by_id := idsMapOf reqs 0, metrics_by_name := namesMapOf reqs 0 }

/-- Runs a sequence of `create_metric` calls, collecting each call's
result. -/
def registerAll (r : MetricRegistry) :
    List MetricRequest → MetricRegistry × List (Except MetricCreationError UntypedMetricId)
  | [] => (r, [])
  | req :: rest =>
      let step := r.create_metric req.name req.value_type req.unit req.description
      let tail := registerAll step.1 rest
      (tail.1, step.2 :: tail.2)

/-- The names of a request list, in order. -/
def reqNames (reqs : List MetricRequest) : List String :=
  reqs.map (fun r => r.name)

@[simp]
theorem withIdx_nil (n : Nat) : withIdx [] n = [] := rfl

@[simp]
theorem withIdx_cons (r : MetricRequest) (rs : List MetricRequest) (n : Nat) :
    withIdx (r :: rs) n = (n, r) :: withIdx rs (n + 1) := rfl

theorem withIdx_length (reqs : List MetricRequest) (n : Nat) :
    (withIdx reqs n).length = reqs.length := by
  induction reqs generalizing n with
  | nil => rfl
  | cons r rs ih => simp [withIdx, ih]

theorem withIdx_append (xs ys : List MetricRequest) (n : Nat) :
    withIdx (xs ++ ys) n = withIdx xs n ++ withIdx ys (n + xs.length) := by
  induction xs generalizing n with
  | nil => simp
  | cons x xs ih =>
      have harith : n + 1 + xs.length = n + (xs.length + 1) := by omega
      simp [withIdx, ih (n + 1), harith]

@[simp]
theorem namesMapOf_nil (n : Nat) : namesMapOf [] n = [] := rfl

@[simp]
theorem namesMapOf_cons (r : MetricRequest) (rs : List MetricRequest) (n : Nat) :
    namesMapOf (r :: rs) n = (r.name, ⟨n⟩) :: namesMapOf rs (n + 1) := rfl

@[simp]
theorem idsMapOf_nil (n : Nat) : idsMapOf [] n = [] := rfl

@[simp]
theorem idsMapOf_cons (r : MetricRequest) (rs : List MetricRequest) (n : Nat) :
    idsMapOf (r :: rs) n = (⟨n⟩, mkMetric n r) :: idsMapOf rs (n + 1) := rfl

@[simp]
theorem reqNames_nil : reqNames [] = [] := rfl

@[simp]
theorem reqNames_cons (r : MetricRequest) (rs : List MetricRequest) :
    reqNames (r :: rs) = r.name :: reqNames rs := rfl

/-- Lookup of an absent name in a canonical by-name map. -/
theorem lookupA_namesMapOf_none (reqs : List MetricRequest) (n : Nat) (name : String)
    (h : name ∉ reqNames reqs) :
    lookupA (namesMapOf reqs n) name = none := by
  induction reqs generalizing n with
  | nil => rfl
  | cons r rs ih =>
      rw [reqNames_cons, List.mem_cons] at h
      push_neg at h
      rw [namesMapOf_cons, lookupA_cons, if_neg h.1]
      exact ih (n + 1) h.2

/-- A registered name is found in the canonical by-name map. -/
theorem lookupA_namesMapOf_mem_isSome (reqs : List MetricRequest) (n : Nat) (name : String)
    (h : name ∈ reqNames reqs) :
    (lookupA (namesMapOf reqs n) name).isSome := by
  induction reqs generalizing n with
  | nil => simp [reqNames] at h
  | cons r rs ih =>
      rw [namesMapOf_cons, lookupA_cons]
      by_cases hn : name = r.name
      · simp [hn]
      · rw [if_neg hn]
        rw [reqNames_cons, List.mem_cons] at h
        exact ih (n + 1) (h.resolve_left hn)

/-- A name found in a canonical by-name map is among the request names. -/
theorem lookupA_namesMapOf_isSome (reqs : List MetricRequest) (n : Nat) (name : String)
    (h : (lookupA (namesMapOf reqs n) name).isSome) :
    name ∈ reqNames reqs := by
  induction reqs generalizing n with
  | nil => simp [namesMapOf] at h
  | cons r rs ih =>
      rw [reqNames_cons, List.mem_cons]
      by_cases hn : name = r.name
      · exact Or.inl hn
      · rw [namesMapOf_cons, lookupA_cons, if_neg hn] at h
        exact Or.inr (ih (n + 1) h)

/-- Lookup of an id past the end of a canonical by-id map. -/
theorem lookupA_idsMapOf_none (reqs : List MetricRequest) (n m : Nat)
    (h : n + reqs.length ≤ m) :
    lookupA (idsMapOf reqs n) ⟨m⟩ = none := by
  induction reqs generalizing n with
  | nil => rfl
  | cons r rs ih =>
      have hne : (⟨m⟩ : UntypedMetricId) ≠ ⟨n⟩ := by
        intro he
        rw [UntypedMetricId.mk.injEq] at he
        simp at h
        omega
      rw [idsMapOf_cons, lookupA_cons, if_neg hne]
      exact ih (n + 1) (by simp at h ⊢; omega)

/-- Lookup of a registered id in a canonical by-id map. -/
theorem lookupA_idsMapOf_get (reqs : List MetricRequest) (n j : Nat) (hj : j < reqs.length) :
    lookupA (idsMapOf reqs n) ⟨n + j⟩ = some (mkMetric (n + j) (reqs.get ⟨j, hj⟩)) := by
  induction reqs generalizing n j with
  | nil => simp at hj
  | cons r rs ih =>
      cases j with
      | zero => simp [lookupA]
      | succ j' =>
          have hne : (⟨n + (j' + 1)⟩ : UntypedMetricId) ≠ ⟨n⟩ := by
            intro he
            rw [UntypedMetricId.mk.injEq] at he
            omega
          have hj' : j' < rs.length := by simpa using hj
          have hih := ih (n + 1) j' hj'
          have harith : n + 1 + j' = n + (j' + 1) := by omega
          rw [harith] at hih
          rw [idsMapOf_cons, lookupA_cons, if_neg hne]
          exact hih

/-- The list of `len` consecutive successful results, ids starting at
`n`. -/
def okIds (n : Nat) : Nat → List (Except MetricCreationError UntypedMetricId)
  | 0 => []
  | k + 1 => Except.ok ⟨n⟩ :: okIds (n + 1) k

@[simp]
theorem okIds_zero (n : Nat) : okIds n 0 = [] := rfl

@[simp]
theorem okIds_succ (n k : Nat) : okIds n (k + 1) = Except.ok ⟨n⟩ :: okIds (n + 1) k := rfl

theorem okIds_length (n k : Nat) : (okIds n k).length = k := by
  induction k generalizing n with
  | zero => rfl
  | succ k ih => simp [ih]

theorem okIds_get (k n j : Nat) (hj : j < (okIds n k).length) :
    (okIds n k).get ⟨j, hj⟩ = Except.ok ⟨n + j⟩ := by
  induction k generalizing n j with
  | zero => simp [okIds_length] at hj
  | succ k ih =>
      cases j with
      | zero => simp [List.get]
      | succ j' =>
          have hj' : j' < (okIds (n + 1) k).length := by
            simpa [okIds_length] using hj
          have hih := ih (n + 1) j' hj'
          have harith : n + 1 + j' = n + (j' + 1) := by omega
          rw [harith] at hih
          simpa [List.get] using hih

theorem okIds_get? (k n j : Nat) (hj : j < k) :
    (okIds n k).get? j = some (Except.ok ⟨n + j⟩) := by
  induction k generalizing n j with
  | zero => omega
  | succ k ih =>
      cases j with
      | zero => simp
      | succ j' =>
          have hih := ih (n + 1) j' (by omega)
          have harith : n + 1 + j' = n + (j' + 1) := by omega
          rw [harith] at hih
          simpa using hih

theorem okIds_nodup (n k : Nat) : (okIds n k).Nodup := by
  induction k generalizing n with
  | zero => simp
  | succ k ih =>
      rw [okIds_succ, List.nodup_cons]
      refine ⟨?_, ih (n + 1)⟩
      intro hmem
      obtain ⟨j, hj⟩ := List.mem_iff_get.mp hmem
      rw [okIds_get k (n + 1) j.1 j.2] at hj
      simp at hj
      omega

/-- Lookup of a registered name in a canonical by-name map, when the
request names are pairwise distinct. -/
theorem lookupA_namesMapOf_get (reqs : List MetricRequest) (n j : Nat) (hj : j < reqs.length)
    (hnd : (reqNames reqs).Nodup) :
    lookupA (namesMapOf reqs n) (reqs.get ⟨j, hj⟩).name = some ⟨n + j⟩ := by
  induction reqs generalizing n j with
  | nil => simp at hj
  | cons r rs ih =>
      cases j with
      | zero => simp [lookupA]
      | succ j' =>
          have hj' : j' < rs.length := by simpa using hj
          rw [reqNames_cons, List.nodup_cons] at hnd
          have hmem : (rs.get ⟨j', hj'⟩).name ∈ reqNames rs :=
            List.mem_map.mpr ⟨rs.get ⟨j', hj'⟩, List.get_mem rs j' hj', rfl⟩
          have hne : (rs.get ⟨j', hj'⟩).name ≠ r.name := by
            intro he
            exact hnd.1 (he ▸ hmem)
          have hih := ih (n + 1) j' hj' hnd.2
          have harith : n + 1 + j' = n + (j' + 1) := by omega
          rw [harith] at hih
          show lookupA (namesMapOf (r :: rs) n) (rs.get ⟨j', hj'⟩).name = some ⟨n + (j' + 1)⟩
          rw [namesMapOf_cons, lookupA_cons, if_neg hne]
          exact hih

/-- Every entry of a canonical by-name map is the name of the request at
some index, mapped to that index. -/
theorem mem_namesMapOf (reqs : List MetricRequest) (n : Nat) (p : String × UntypedMetricId)
    (hp : p ∈ namesMapOf reqs n) :
    ∃ j, ∃ hj : j < reqs.length, p = ((reqs.get ⟨j, hj⟩).name, ⟨n + j⟩) := by
  induction reqs generalizing n with
  | nil => simp [namesMapOf] at hp
  | cons r rs ih =>
      rw [namesMapOf_cons, List.mem_cons] at hp
      rcases hp with rfl | hp
      · exact ⟨0, by simp, by simp⟩
      · obtain ⟨j, hj, rfl⟩ := ih (n + 1) hp
        refine ⟨j + 1, Nat.succ_lt_succ hj, ?_⟩
        have harith : n + 1 + j = n + (j + 1) := by omega
        rw [harith]
        rfl

theorem reqNames_append (xs ys : List MetricRequest) :
    reqNames (xs ++ ys) = reqNames xs ++ reqNames ys := by
  simp [reqNames]

theorem namesMapOf_append_single (pre : List MetricRequest) (req : MetricRequest) (n : Nat) :
    namesMapOf (pre ++ [req]) n = namesMapOf pre n ++ [(req.name, ⟨n + pre.length⟩)] := by
  rw [namesMapOf, withIdx_append, List.map_append]
  rfl

theorem idsMapOf_append_single (pre : List MetricRequest) (req : MetricRequest) (n : Nat) :
    idsMapOf (pre ++ [req]) n = idsMapOf pre n ++ [(⟨n + pre.length⟩, mkMetric (n + pre.length) req)] := by
  rw [idsMapOf, withIdx_append, List.map_append]
  rfl

theorem idsMapOf_length (reqs : List MetricRequest) (n : Nat) :
    (idsMapOf reqs n).length = reqs.length := by
  rw [idsMapOf, List.length_map, withIdx_length]

theorem namesMapOf_length (reqs : List MetricRequest) (n : Nat) :
    (namesMapOf reqs n).length = reqs.length := by
  rw [namesMapOf, List.length_map, withIdx_length]

/-- One successful `create_metric` call on a canonical registry appends
the request and returns the next dense id. -/
theorem create_metric_canonical (pre : List MetricRequest) (req : MetricRequest)
    (h : req.name ∉ reqNames pre) :
    (registryOf pre).create_metric req.name req.value_type req.unit req.description
      = (registryOf (pre ++ [req]), Except.ok ⟨pre.length⟩) := by
  have hnone : lookupA (namesMapOf pre 0) req.name = none :=
    lookupA_namesMapOf_none pre 0 _ h
  have hidnone : lookupA (idsMapOf pre 0) ⟨pre.length⟩ = none :=
    lookupA_idsMapOf_none pre 0 pre.length (by omega)
  have hlen : (registryOf pre).metrics_by_id.length = pre.length :=
    idsMapOf_length pre 0
  show (match lookupA (registryOf pre).metrics_by_name req.name with
    | some _ =>
        ((registryOf pre), Except.error (MetricCreationError.new
            ("A metric with this name already exist: " ++ req.name)))
    | none =>
        let id : UntypedMetricId := ⟨(registryOf pre).metrics_by_id.length⟩
        let m : Metric :=
          { id := id, name := req.name, description := req.description,
            value_type := req.value_type, unit := req.unit }
        ({ metrics_by_name := insertA (registryOf pre).metrics_by_name req.name id,
           metrics_by_id := insertA (registryOf pre).metrics_by_id id m },
         Except.ok id)) = (registryOf (pre ++ [req]), Except.ok ⟨pre.length⟩)
  have hby_name : (registryOf pre).metrics_by_name = namesMapOf pre 0 := rfl
  have hby_id : (registryOf pre).metrics_by_id = idsMapOf pre 0 := rfl
  rw [hby_name, hnone]
  simp only [hby_id, idsMapOf_length]
  rw [insertA_of_not_mem (namesMapOf pre 0) req.name _ hnone,
      insertA_of_not_mem (idsMapOf pre 0) _ _ hidnone]
  rw [registryOf, namesMapOf_append_single, idsMapOf_append_single]
  simp [mkMetric]

/-- Canonical form of a run of `create_metric` calls with globally fresh,
pairwise distinct names, starting from the canonical registry of `pre`. -/
theorem registerAll_canonical (reqs : List MetricRequest) :
    ∀ pre : List MetricRequest, (reqNames (pre ++ reqs)).Nodup →
    registerAll (registryOf pre) reqs
      = (registryOf (pre ++ reqs), okIds pre.length reqs.length) := by
  induction reqs with
  | nil =>
      intro pre _
      simp [registerAll]
  | cons req rest ih =>
      intro pre hnd
      have hfresh : req.name ∉ reqNames pre := by
        rw [reqNames_append, List.nodup_append] at hnd
        intro hmem
        exact hnd.2.2 hmem (by simp)
      have hih := ih (pre ++ [req]) (by
        rw [List.append_assoc]
        simpa using hnd)
      rw [registerAll]
      rw [create_metric_canonical pre req hfresh]
      simp only [hih, List.append_assoc, List.length_append, List.singleton_append,
        List.length_cons, List.length_nil]
      rw [okIds_succ]

/-- Modelled from the spec: the state of the `CounterDiff` helper, whose
implementation file (`plugin::util`) is absent from the sources: a
modulus `max_value` and the optional last observed raw value. -/
structure CounterDiff where
  max_value : Nat
  previous : Option Nat
deriving DecidableEq, Repr

/-- Modelled from the spec: the result of one `CounterDiff::update`. -/
inductive CounterDiffUpdate where
  | FirstTime
  | Difference (d : Nat)
  | CorrectedDifference (d : Nat)
deriving DecidableEq, Repr

/-- Modelled from the spec: `CounterDiff::with_max_value` constructs the
helper with modulus `M` and no previous sample. -/
def CounterDiff.with_max_value (max_value : Nat) : CounterDiff :=
  { max_value := max_value, previous := none }

/-- Modelled from the spec: `CounterDiff::update`.  With no previous
sample it stores `current` and returns `FirstTime`; with `current ≥ prev`
it returns `Difference(current − prev)`; on an apparent regression it
interprets the sample as a wrap through `max_value` inclusive and returns
`CorrectedDifference((max_value − prev) + current + 1)`, the convention
the spec says the tests pin (scenario S2).  State passing replaces
`&mut self`. -/
def CounterDiff.update (c : CounterDiff) (current : Nat) :
    CounterDiff × CounterDiffUpdate :=
  match c.previous with
  | none => ({ c with previous := some current }, CounterDiffUpdate.FirstTime)
  | some prev =>
      if prev ≤ current then
        ({ c with previous := some current }, CounterDiffUpdate.Difference (current - prev))
      else
        ({ c with previous := some current },
         CounterDiffUpdate.CorrectedDifference (c.max_value - prev + current + 1))

/-- Timestamps are opaque tokens handed to `poll` by the scheduler; the
embedding only ever compares them. -/
abbrev Timestamp := Nat

/-- Attribute values of a measurement point; the probe only uses the
`String` variant. -/
inductive AttributeValue where
  | String (s : String)
  | Int (i : Int)
  | Bool (b : Bool)
deriving DecidableEq, Repr

/-- What is being measured.  The probe only uses `LocalMachine`. -/
inductive Resource where
  | LocalMachine
  | CpuPackage (index : Nat)
  | CpuCore (index : Nat)
deriving DecidableEq, Repr

/-- Who consumes the measured resource. -/
inductive ResourceConsumer where
  | LocalMachine
  | Process (pid : Nat)
  | ControlGroup (path : String)
deriving DecidableEq, Repr

/-- One measurement: the fields of the Rust `MeasurementPoint`, with the
typed metric id reduced to its underlying dense integer and the `u64`
payload to `Nat`. -/
structure MeasurementPoint where
  timestamp : Timestamp
  metric : Nat
  resource : Resource
  consumer : ResourceConsumer
  value : Nat
  attributes : List (String × AttributeValue)
deriving DecidableEq, Repr

/-- Constructor `MeasurementPoint::new`: no attributes yet. -/
def MeasurementPoint.new (timestamp : Timestamp) (metric : Nat) (resource : Resource)
    (consumer : ResourceConsumer) (value : Nat) : MeasurementPoint :=
  { timestamp := timestamp, metric := metric, resource := resource,
    consumer := consumer, value := value, attributes := [] }

/-- Builder `MeasurementPoint::with_attr`: records one attribute. -/
def MeasurementPoint.with_attr (p : MeasurementPoint) (key : String) (v : AttributeValue) :
    MeasurementPoint :=
  { p with attributes := p.attributes ++ [(key, v)] }

/-- The parsed content of one cgroup v2 `cpu.stat` file, as consumed by
`K8SProbe::poll`. -/
structure CgroupV2Metric where
  name : String
  time_used_tot : Nat
  time_used_user_mode : Nat
  time_used_system_mode : Nat
deriving DecidableEq, Repr

/-- Handle on one cgroup file; `poll` only reads its `path`. -/
structure CgroupV2MetricFile where
  path : String
deriving DecidableEq, Repr

/-- The three typed metric ids the K8s plugin registers, reduced to their
underlying dense integers. -/
structure Metrics where
  time_used_tot : Nat
  time_used_user_mode : Nat
  time_used_system_mode : Nat
deriving DecidableEq, Repr

/-- Errors a `poll` may surface; two-level severity per the spec. -/
inductive PollError where
  | Fatal (msg : String)
  | Transient (msg : String)
deriving DecidableEq, Repr

/-- Constant `CGROUP_MAX_TIME_COUNTER = u64::MAX`. -/
def CGROUP_MAX_TIME_COUNTER : Nat := 2 ^ 64 - 1

/-- The `K8SProbe` source: its metric ids and, per cgroup file, the three
counter-difference helpers. -/
structure K8SProbe where
  metrics : Metrics
  metric_and_counter : List (CgroupV2MetricFile × CounterDiff × CounterDiff × CounterDiff)
deriving DecidableEq, Repr

/-- Constructor `K8SProbe::new`: pairs every file with three fresh
counters of modulus `CGROUP_MAX_TIME_COUNTER`. -/
def K8SProbe.new (metric : Metrics) (final_li_metric : List CgroupV2MetricFile) : K8SProbe :=
  { metrics := metric,
    metric_and_counter := final_li_metric.map (fun f =>
      (f, CounterDiff.with_max_value CGROUP_MAX_TIME_COUNTER,
          CounterDiff.with_max_value CGROUP_MAX_TIME_COUNTER,
          CounterDiff.with_max_value CGROUP_MAX_TIME_COUNTER)) }

/-- The match on `counter_tot.update(..)` in `poll`: its two non-trivial
arms are merged into one or-pattern in the source. -/
def matchDiffTot : CounterDiffUpdate → Option Nat
  | CounterDiffUpdate.FirstTime => none
  | CounterDiffUpdate.Difference d | CounterDiffUpdate.CorrectedDifference d => some d

/-- The match on `counter_usr.update(..)` in `poll`: two separate arms
with identical bodies in the source. -/
def matchDiffUsr : CounterDiffUpdate → Option Nat
  | CounterDiffUpdate.FirstTime => none
  | CounterDiffUpdate.Difference d => some d
  | CounterDiffUpdate.CorrectedDifference d => some d

/-- The match on `counter_sys.update(..)` in `poll`: two separate arms
with identical bodies in the source. -/
def matchDiffSys : CounterDiffUpdate → Option Nat
  | CounterDiffUpdate.FirstTime => none
  | CounterDiffUpdate.Difference d => some d
  | CounterDiffUpdate.CorrectedDifference d => some d

/-- The three conditional pushes at the end of one iteration of the
`poll` loop, in source order: total, then user, then system. -/
def entryPoints (ms : Metrics) (timestamp : Timestamp) (consumer : ResourceConsumer)
    (pod : String) (diff_tot diff_usr diff_sys : Option Nat) : List MeasurementPoint :=
  (match diff_tot with
   | some value_tot =>
       [(MeasurementPoint.new timestamp ms.time_used_tot Resource.LocalMachine consumer
           value_tot).with_attr "pod" (AttributeValue.String pod)]
   | none => []) ++
  (match diff_usr with
   | some value_usr =>
       [(MeasurementPoint.new timestamp ms.time_used_user_mode Resource.LocalMachine consumer
           value_usr).with_attr "pod" (AttributeValue.String pod)]
   | none => []) ++
  (match diff_sys with
   | some value_sys =>
       [(MeasurementPoint.new timestamp ms.time_used_system_mode Resource.LocalMachine consumer
           value_sys).with_attr "pod" (AttributeValue.String pod)]
   | none => [])

/-- The loop of `K8SProbe::poll` over `metric_and_counter`.  File reading
(`gather_value`) is abstracted as the function `gather`; a read failure
propagates out through `?`, keeping the points pushed and the counters
updated by the earlier iterations.  Returns the updated entries, the
points pushed to the accumulator, and the error if any. -/
def pollLoop (ms : Metrics) (gather : CgroupV2MetricFile → Except PollError CgroupV2Metric)
    (timestamp : Timestamp) :
    List (CgroupV2MetricFile × CounterDiff × CounterDiff × CounterDiff) →
    List (CgroupV2MetricFile × CounterDiff × CounterDiff × CounterDiff)
      × List MeasurementPoint × Option PollError
  | [] => ([], [], none)
  | (file, counter_tot, counter_usr, counter_sys) :: rest =>
      match gather file with
      | Except.error e => ((file, counter_tot, counter_usr, counter_sys) :: rest, [], some e)
      | Except.ok m =>
          let ut := counter_tot.update m.time_used_tot
          let uu := counter_usr.update m.time_used_user_mode
          let us := counter_sys.update m.time_used_system_mode
          let consumer := ResourceConsumer.ControlGroup file.path
          let pts := entryPoints ms timestamp consumer m.name
            (matchDiffTot ut.2) (matchDiffUsr uu.2) (matchDiffSys us.2)
          let tail := pollLoop ms gather timestamp rest
          ((file, ut.1, uu.1, us.1) :: tail.1, pts ++ tail.2.1, tail.2.2)

/-- Operation `K8SProbe::poll`: runs the loop, returning the probe with
its updated counters, the accumulated points, and the error if any. -/
def K8SProbe.poll (p : K8SProbe)
    (gather : CgroupV2MetricFile → Except PollError CgroupV2Metric)
    (timestamp : Timestamp) : K8SProbe × List MeasurementPoint × Option PollError :=
  let res := pollLoop p.metrics gather timestamp p.metric_and_counter
  ({ p with metric_and_counter := res.1 }, res.2.1, res.2.2)

/-- A transform paired with the name of the plugin that contributed it. -/
structure ConfiguredTransform (T : Type) where
  transform : T
  plugin_name : String
deriving DecidableEq, Repr

/-- An output paired with the name of the plugin that contributed it. -/
structure ConfiguredOutput (O : Type) where
  output : O
  plugin_name : String
deriving DecidableEq, Repr

/-- The registry of pipeline elements.  The element trait objects are
abstracted as type parameters. -/
structure ElementRegistry (S T O : Type) where
  sources : List (S × String)
  transforms : List (ConfiguredTransform T)
  outputs : List (ConfiguredOutput O)
deriving DecidableEq, Repr

namespace ElementRegistry

/-- Constructor `ElementRegistry::new`: three empty vectors. -/
def new (S T O : Type) : ElementRegistry S T O :=
  { sources := [], transforms := [], outputs := [] }

/-- Accessor `source_count`. -/
def source_count {S T O : Type} (r : ElementRegistry S T O) : Nat :=
  r.sources.length

/-- Accessor `transform_count`. -/
def transform_count {S T O : Type} (r : ElementRegistry S T O) : Nat :=
  r.transforms.length

/-- Accessor `output_count`. -/
def output_count {S T O : Type} (r : ElementRegistry S T O) : Nat :=
  r.outputs.length

/-- Operation `add_source`: pushes `(source, plugin_name)` at the end. -/
def add_source {S T O : Type} (r : ElementRegistry S T O) (plugin_name : String) (source : S) :
    ElementRegistry S T O :=
  { r with sources := r.sources ++ [(source, plugin_name)] }

/-- Operation `add_transform`: pushes the configured transform at the
end. -/
def add_transform {S T O : Type} (r : ElementRegistry S T O) (plugin_name : String)
    (transform : T) : ElementRegistry S T O :=
  { r with transforms := r.transforms ++ [{ transform := transform, plugin_name := plugin_name }] }

/-- Operation `add_output`: pushes the configured output at the end. -/
def add_output {S T O : Type} (r : ElementRegistry S T O) (plugin_name : String)
    (output : O) : ElementRegistry S T O :=
  { r with outputs := r.outputs ++ [{ output := output, plugin_name := plugin_name }] }

end ElementRegistry

/-- One call to an `add_*` operation of the element registry. -/
inductive ElemOp (S T O : Type) where
  | addSource (plugin_name : String) (source : S)
  | addTransform (plugin_name : String) (transform : T)
  | addOutput (plugin_name : String) (output : O)
deriving DecidableEq, Repr

/-- Applies one `add_*` call. -/
def applyOp {S T O : Type} (r : ElementRegistry S T O) : ElemOp S T O → ElementRegistry S T O
  | ElemOp.addSource p s => r.add_source p s
  | ElemOp.addTransform p t => r.add_transform p t
  | ElemOp.addOutput p o => r.add_output p o

/-- Applies a sequence of `add_*` calls in order. -/
def applyOps {S T O : Type} (r : ElementRegistry S T O) :
    List (ElemOp S T O) → ElementRegistry S T O
  | [] => r
  | op :: ops => applyOps (applyOp r op) ops

/-- The source entries a call sequence contributes, in order. -/
def sourceEntries {S T O : Type} (ops : List (ElemOp S T O)) : List (S × String) :=
  ops.filterMap (fun op => match op with
    | ElemOp.addSource p s => some (s, p)
    | _ => none)

/-- The transform entries a call sequence contributes, in order. -/
def transformEntries {S T O : Type} (ops : List (ElemOp S T O)) : List (ConfiguredTransform T) :=
  ops.filterMap (fun op => match op with
    | ElemOp.addTransform p t => some { transform := t, plugin_name := p }
    | _ => none)

/-- The output entries a call sequence contributes, in order. -/
def outputEntries {S T O : Type} (ops : List (ElemOp S T O)) : List (ConfiguredOutput O) :=
  ops.filterMap (fun op => match op with
    | ElemOp.addOutput p o => some { output := o, plugin_name := p }
    | _ => none)

/-- Whether the call is an `add_source`. -/
def ElemOp.isSource {S T O : Type} : ElemOp S T O → Bool
  | ElemOp.addSource _ _ => true
  | _ => false

/-- Whether the call is an `add_transform`. -/
def ElemOp.isTransform {S T O : Type} : ElemOp S T O → Bool
  | ElemOp.addTransform _ _ => true
  | _ => false

/-- Whether the call is an `add_output`. -/
def ElemOp.isOutput {S T O : Type} : ElemOp S T O → Bool
  | ElemOp.addOutput _ _ => true
  | _ => false

/-- On a name hit, `create_metric` returns the conflict error and the
state untouched. -/
theorem create_metric_of_lookup_some (r : MetricRegistry) (name : String)
    (vt : WrappedMeasurementType) (u : units.Unit) (d : String) (id : UntypedMetricId)
    (h : lookupA r.metrics_by_name name = some id) :
    r.create_metric name vt u d
      = (r, Except.error (MetricCreationError.new
            ("A metric with this name already exist: " ++ name))) := by
  unfold MetricRegistry.create_metric
  rw [h]

/-- States of the metric registry produced by `new` and any sequence of
`create_metric` calls, successful or not. -/
inductive Reachable : MetricRegistry → Prop where
  | base : Reachable MetricRegistry.new
  | step (r : MetricRegistry) (name : String) (vt : WrappedMeasurementType)
      (u : units.Unit) (d : String) (h : Reachable r) :
      Reachable (r.create_metric name vt u d).1

/-- Every reachable registry is the canonical registry of a
duplicate-free request list. -/
theorem reachable_canonical (r : MetricRegistry) (h : Reachable r) :
    ∃ reqs : List MetricRequest, (reqNames reqs).Nodup ∧ r = registryOf reqs := by
  induction h with
  | base => exact ⟨[], by simp, rfl⟩
  | step r name vt u d _ ih =>
      obtain ⟨reqs, hnd, rfl⟩ := ih
      cases hc : lookupA (registryOf reqs).metrics_by_name name with
      | some id =>
          rw [create_metric_of_lookup_some _ name vt u d id hc]
          exact ⟨reqs, hnd, rfl⟩
      | none =>
          have hfresh : name ∉ reqNames reqs := by
            intro hmem
            have hs := lookupA_namesMapOf_mem_isSome reqs 0 name hmem
            have hc' : lookupA (namesMapOf reqs 0) name = none := hc
            rw [hc'] at hs
            simp at hs
          have := create_metric_canonical reqs ⟨name, vt, u, d⟩ hfresh
          rw [this]
          refine ⟨reqs ++ [⟨name, vt, u, d⟩], ?_, rfl⟩
          rw [reqNames_append, List.nodup_append]
          refine ⟨hnd, by simp, ?_⟩
          intro a ha hb
          simp [reqNames] at hb
          exact hfresh (hb ▸ ha)

/-- Every point of one loop iteration carries the `poll` timestamp. -/
theorem entryPoints_timestamp (ms : Metrics) (ts : Timestamp) (consumer : ResourceConsumer)
    (pod : String) (dt du ds : Option Nat) :
    ∀ pt ∈ entryPoints ms ts consumer pod dt du ds, pt.timestamp = ts := by
  intro pt hpt
  have hT : ∀ (metric v : Nat),
      ((MeasurementPoint.new ts metric Resource.LocalMachine consumer v).with_attr
        "pod" (AttributeValue.String pod)).timestamp = ts := fun _ _ => rfl
  rcases dt with _ | vt <;> rcases du with _ | vu <;> rcases ds with _ | vs <;>
    simp [entryPoints] at hpt <;>
    first
      | (rcases hpt with rfl | rfl | rfl
         · exact hT _ _
         · exact hT _ _
         · exact hT _ _)
      | (rcases hpt with rfl | rfl
         · exact hT _ _
         · exact hT _ _)
      | (rw [hpt]; exact hT _ _)

/-- With no deltas, one loop iteration pushes nothing. -/
theorem entryPoints_none (ms : Metrics) (ts : Timestamp) (consumer : ResourceConsumer)
    (pod : String) : entryPoints ms ts consumer pod none none none = [] := rfl

/-- Every point the loop pushes carries the `poll` timestamp. -/
theorem pollLoop_timestamp (ms : Metrics)
    (gather : CgroupV2MetricFile → Except PollError CgroupV2Metric) (ts : Timestamp)
    (l : List (CgroupV2MetricFile × CounterDiff × CounterDiff × CounterDiff)) :
    ∀ pt ∈ (pollLoop ms gather ts l).2.1, pt.timestamp = ts := by
  induction l with
  | nil => intro pt hpt; simp [pollLoop] at hpt
  | cons entry rest ih =>
      obtain ⟨file, ct, cu, cs⟩ := entry
      intro pt hpt
      rw [pollLoop] at hpt
      cases hg : gather file with
      | error e =>
          rw [hg] at hpt
          simp at hpt
      | ok m =>
          rw [hg] at hpt
          simp only [List.mem_append] at hpt
          rcases hpt with hpt | hpt
          · exact entryPoints_timestamp ms ts _ m.name _ _ _ pt hpt
          · exact ih pt hpt

/-- A fresh counter records the sample and reports `FirstTime`. -/
theorem counterDiff_update_fresh (c : CounterDiff) (v : Nat) (h : c.previous = none) :
    c.update v = ({ c with previous := some v }, CounterDiffUpdate.FirstTime) := by
  unfold CounterDiff.update
  rw [h]

/-- A loop over fresh counters with successful reads pushes no point and
reports no error. -/
theorem pollLoop_fresh (ms : Metrics)
    (gather : CgroupV2MetricFile → Except PollError CgroupV2Metric) (ts : Timestamp)
    (l : List (CgroupV2MetricFile × CounterDiff × CounterDiff × CounterDiff))
    (hfresh : ∀ e ∈ l, e.2.1.previous = none ∧ e.2.2.1.previous = none
        ∧ e.2.2.2.previous = none)
    (hok : ∀ e ∈ l, ∃ m, gather e.1 = Except.ok m) :
    (pollLoop ms gather ts l).2.1 = [] ∧ (pollLoop ms gather ts l).2.2 = none := by
  induction l with
  | nil => exact ⟨rfl, rfl⟩
  | cons entry rest ih =>
      obtain ⟨file, ct, cu, cs⟩ := entry
      obtain ⟨m, hm⟩ := hok (file, ct, cu, cs) (by simp)
      obtain ⟨h1, h2, h3⟩ := hfresh (file, ct, cu, cs) (by simp)
      have htail := ih (fun e he => hfresh e (List.mem_cons_of_mem _ he))
        (fun e he => hok e (List.mem_cons_of_mem _ he))
      rw [pollLoop, hm]
      simp only [counterDiff_update_fresh ct _ h1, counterDiff_update_fresh cu _ h2,
        counterDiff_update_fresh cs _ h3, matchDiffTot, matchDiffUsr, matchDiffSys,
        entryPoints_none, List.nil_append]
      exact htail

/-- Effect of a call sequence on the element registry, relative to any
starting state: each kind of entry is appended in call order. -/
theorem applyOps_entries {S T O : Type} (ops : List (ElemOp S T O)) :
    ∀ r : ElementRegistry S T O,
      (applyOps r ops).sources = r.sources ++ sourceEntries ops
    ∧ (applyOps r ops).transforms = r.transforms ++ transformEntries ops
    ∧ (applyOps r ops).outputs = r.outputs ++ outputEntries ops := by
  induction ops with
  | nil =>
      intro r
      simp [applyOps, sourceEntries, transformEntries, outputEntries]
  | cons op ops ih =>
      intro r
      cases op with
      | addSource p s =>
          have h := ih (r.add_source p s)
          refine ⟨?_, ?_, ?_⟩
          · show (applyOps (r.add_source p s) ops).sources = _
            rw [h.1]
            simp [ElementRegistry.add_source, sourceEntries, List.filterMap_cons]
          · show (applyOps (r.add_source p s) ops).transforms = _
            rw [h.2.1]
            simp [ElementRegistry.add_source, transformEntries, List.filterMap_cons]
          · show (applyOps (r.add_source p s) ops).outputs = _
            rw [h.2.2]
            simp [ElementRegistry.add_source, outputEntries, List.filterMap_cons]
      | addTransform p t =>
          have h := ih (r.add_transform p t)
          refine ⟨?_, ?_, ?_⟩
          · show (applyOps (r.add_transform p t) ops).sources = _
            rw [h.1]
            simp [ElementRegistry.add_transform, sourceEntries, List.filterMap_cons]
          · show (applyOps (r.add_transform p t) ops).transforms = _
            rw [h.2.1]
            simp [ElementRegistry.add_transform, transformEntries, List.filterMap_cons]
          · show (applyOps (r.add_transform p t) ops).outputs = _
            rw [h.2.2]
            simp [ElementRegistry.add_transform, outputEntries, List.filterMap_cons]
      | addOutput p o =>
          have h := ih (r.add_output p o)
          refine ⟨?_, ?_, ?_⟩
          · show (applyOps (r.add_output p o) ops).sources = _
            rw [h.1]
            simp [ElementRegistry.add_output, sourceEntries, List.filterMap_cons]
          · show (applyOps (r.add_output p o) ops).transforms = _
            rw [h.2.1]
            simp [ElementRegistry.add_output, transformEntries, List.filterMap_cons]
          · show (applyOps (r.add_output p o) ops).outputs = _
            rw [h.2.2]
            simp [ElementRegistry.add_output, outputEntries, List.filterMap_cons]

/-- The number of entries of each kind equals the number of calls of that
kind. -/
theorem entries_length {S T O : Type} (ops : List (ElemOp S T O)) :
    (sourceEntries ops).length = (ops.filter (fun op => op.isSource)).length
  ∧ (transformEntries ops).length = (ops.filter (fun op => op.isTransform)).length
  ∧ (outputEntries ops).length = (ops.filter (fun op => op.isOutput)).length := by
  induction ops with
  | nil => simp [sourceEntries, transformEntries, outputEntries]
  | cons op ops ih =>
      cases op <;>
        simp only [sourceEntries, transformEntries, outputEntries, ElemOp.isSource,
          ElemOp.isTransform, ElemOp.isOutput, List.filterMap_cons, List.filter_cons]
          at ih ⊢ <;>
        simp [ih.1, ih.2.1, ih.2.2]

/-! Concrete inputs used by the witnesses below. -/

/-- A concrete request registering a `u64` metric named `cpu`. -/
def reqCpu : MetricRequest :=
  { name := "cpu", value_type := WrappedMeasurementType.U64,
    unit := units.Unit.Second, description := "t" }

/-- A concrete request registering an `f64` metric named `mem`. -/
def reqMem : MetricRequest :=
  { name := "mem", value_type := WrappedMeasurementType.F64,
    unit := units.Unit.Joule, description := "m" }

/-- C1: on a name already registered, `create_metric` returns the
`NameConflict` error and leaves the registry — maps, index and `len()` —
completely unchanged. -/
theorem claim_duplicate_name_unchanged (r : MetricRegistry) (name : String)
    (vt : WrappedMeasurementType) (u : units.Unit) (d : String)
    (h : (lookupA r.metrics_by_name name).isSome) :
    r.create_metric name vt u d
      = (r, Except.error (MetricCreationError.new
            ("A metric with this name already exist: " ++ name)))
  ∧ (r.create_metric name vt u d).1.len = r.len := by
  obtain ⟨id, hid⟩ := Option.isSome_iff_exists.mp h
  rw [create_metric_of_lookup_some r name vt u d id hid]
  exact ⟨rfl, rfl⟩

theorem claim_duplicate_name_unchanged_witness :
    (registryOf [reqCpu]).create_metric "cpu" WrappedMeasurementType.F64 units.Unit.Unity ""
      = (registryOf [reqCpu], Except.error (MetricCreationError.new
            ("A metric with this name already exist: " ++ "cpu")))
  ∧ ((registryOf [reqCpu]).create_metric "cpu" WrappedMeasurementType.F64
        units.Unit.Unity "").1.len = (registryOf [reqCpu]).len :=
  claim_duplicate_name_unchanged (registryOf [reqCpu]) "cpu" WrappedMeasurementType.F64
    units.Unit.Unity "" (by decide)

/-- C3: `CounterDiff.update` returns `FirstTime` and stores the sample
when no previous sample exists, `Difference(current − prev)` when
`current ≥ prev`, and `CorrectedDifference((M − prev) + current + 1)` on
an apparent regression, always storing the sample; with `max_value = 100`
the updates `10, 30, 5` yield `FirstTime`, `Difference(20)`,
`CorrectedDifference(76)`. -/
theorem claim_counterdiff_update :
    (∀ (c : CounterDiff) (cur : Nat), c.previous = none →
        c.update cur = ({ c with previous := some cur }, CounterDiffUpdate.FirstTime))
  ∧ (∀ (c : CounterDiff) (prev cur : Nat), c.previous = some prev → prev ≤ cur →
        c.update cur
          = ({ c with previous := some cur }, CounterDiffUpdate.Difference (cur - prev)))
  ∧ (∀ (c : CounterDiff) (prev cur : Nat), c.previous = some prev → cur < prev →
        c.update cur
          = ({ c with previous := some cur },
             CounterDiffUpdate.CorrectedDifference (c.max_value - prev + cur + 1)))
  ∧ ((CounterDiff.with_max_value 100).update 10).2 = CounterDiffUpdate.FirstTime
  ∧ (((CounterDiff.with_max_value 100).update 10).1.update 30).2
      = CounterDiffUpdate.Difference 20
  ∧ ((((CounterDiff.with_max_value 100).update 10).1.update 30).1.update 5).2
      = CounterDiffUpdate.CorrectedDifference 76 := by
  refine ⟨?_, ?_, ?_, rfl, rfl, rfl⟩
  · intro c cur h
    exact counterDiff_update_fresh c cur h
  · intro c prev cur h hle
    unfold CounterDiff.update
    rw [h]
    simp [hle]
  · intro c prev cur h hlt
    unfold CounterDiff.update
    rw [h]
    simp [Nat.not_le.mpr hlt]

theorem claim_counterdiff_update_witness :
    (CounterDiff.update { max_value := 100, previous := none } 3
      = ({ max_value := 100, previous := some 3 }, CounterDiffUpdate.FirstTime))
  ∧ (CounterDiff.update { max_value := 100, previous := some 2 } 5
      = ({ max_value := 100, previous := some 5 }, CounterDiffUpdate.Difference (5 - 2)))
  ∧ (CounterDiff.update { max_value := 100, previous := some 30 } 5
      = ({ max_value := 100, previous := some 5 },
         CounterDiffUpdate.CorrectedDifference (100 - 30 + 5 + 1))) :=
  ⟨claim_counterdiff_update.1 { max_value := 100, previous := none } 3 rfl,
   claim_counterdiff_update.2.1 { max_value := 100, previous := some 2 } 2 5 rfl (by decide),
   claim_counterdiff_update.2.2.1 { max_value := 100, previous := some 30 } 30 5 rfl (by decide)⟩

/-- C4: the first `init_global` on the empty cell publishes the registry;
any `init_global` on a published cell is a hard error; `global` before
publication is a hard error, and after publication returns the registry. -/
theorem claim_init_global_once :
    (∀ reg : MetricRegistry, init_global none reg = Except.ok (some reg))
  ∧ (∀ r0 reg : MetricRegistry,
        init_global (some r0) reg
          = Except.error "The MetricRegistry can be initialized only once.")
  ∧ globalRead none = Except.error "The MetricRegistry must be initialized before use."
  ∧ (∀ reg : MetricRegistry, globalRead (some reg) = Except.ok reg) :=
  ⟨fun _ => rfl, fun _ _ => rfl, rfl, fun _ => rfl⟩

/-- C9: the three counter-update match expressions of `K8SProbe::poll`
denote the same function, mapping `FirstTime` to `none` and both
`Difference(d)` and `CorrectedDifference(d)` to `some d`, so the emitted
value never depends on whether a wrap correction occurred. -/
theorem claim_match_arms_agree :
    (∀ u, matchDiffTot u = matchDiffUsr u)
  ∧ (∀ u, matchDiffUsr u = matchDiffSys u)
  ∧ matchDiffTot CounterDiffUpdate.FirstTime = none
  ∧ (∀ d, matchDiffTot (CounterDiffUpdate.Difference d) = some d)
  ∧ (∀ d, matchDiffTot (CounterDiffUpdate.CorrectedDifference d) = some d) := by
  refine ⟨fun u => ?_, fun u => ?_, rfl, fun d => rfl, fun d => rfl⟩ <;> cases u <;> rfl

/-- C2: registering pairwise-distinct names from `new` succeeds at every
step, returns pairwise distinct ids, and every metric is resolvable both
by `with_id` and by `with_name`, each returning the descriptor stored at
creation. -/
theorem claim_distinct_ids_resolvable (reqs : List MetricRequest)
    (hnd : (reqNames reqs).Nodup) :
    (registerAll MetricRegistry.new reqs).2.Nodup
  ∧ (registerAll MetricRegistry.new reqs).2 = okIds 0 reqs.length
  ∧ ∀ (j : Nat) (hj : j < reqs.length),
      (registerAll MetricRegistry.new reqs).1.with_id ⟨j⟩
          = some (mkMetric j (reqs.get ⟨j, hj⟩))
      ∧ (registerAll MetricRegistry.new reqs).1.with_name (reqs.get ⟨j, hj⟩).name
          = some (mkMetric j (reqs.get ⟨j, hj⟩)) := by
  have hcan := registerAll_canonical reqs [] (by simpa using hnd)
  have hnew : registryOf ([] : List MetricRequest) = MetricRegistry.new := rfl
  rw [hnew] at hcan
  simp only [List.nil_append, List.length_nil] at hcan
  refine ⟨?_, ?_, ?_⟩
  · rw [hcan]
    exact okIds_nodup 0 reqs.length
  · rw [hcan]
  · intro j hj
    have hid := lookupA_idsMapOf_get reqs 0 j hj
    rw [Nat.zero_add] at hid
    have hname := lookupA_namesMapOf_get reqs 0 j hj hnd
    rw [Nat.zero_add] at hname
    constructor
    · rw [hcan]
      exact hid
    · rw [hcan]
      show (lookupA (namesMapOf reqs 0) (reqs.get ⟨j, hj⟩).name).bind
          (fun id => lookupA (idsMapOf reqs 0) id) = some (mkMetric j (reqs.get ⟨j, hj⟩))
      rw [hname]
      exact hid

theorem claim_distinct_ids_resolvable_witness :
    (registerAll MetricRegistry.new [reqCpu, reqMem]).2.Nodup
  ∧ (registerAll MetricRegistry.new [reqCpu, reqMem]).2
      = okIds 0 ([reqCpu, reqMem] : List MetricRequest).length
  ∧ ∀ (j : Nat) (hj : j < ([reqCpu, reqMem] : List MetricRequest).length),
      (registerAll MetricRegistry.new [reqCpu, reqMem]).1.with_id ⟨j⟩
          = some (mkMetric j (([reqCpu, reqMem] : List MetricRequest).get ⟨j, hj⟩))
      ∧ (registerAll MetricRegistry.new [reqCpu, reqMem]).1.with_name
            (([reqCpu, reqMem] : List MetricRequest).get ⟨j, hj⟩).name
          = some (mkMetric j (([reqCpu, reqMem] : List MetricRequest).get ⟨j, hj⟩)) :=
  claim_distinct_ids_resolvable [reqCpu, reqMem] (by decide)

/-- C5: ids are allocated densely from `new` — the k-th successful
creation receives id k−1 — `len()` equals the number of successful
creations, and a failed duplicate does not consume an id: after
`create_metric("cpu", U64, Second, "t")` succeeds with id 0 a second
`create_metric("cpu", ...)` fails and `len() == 1`. -/
theorem claim_dense_ids (reqs : List MetricRequest) (hnd : (reqNames reqs).Nodup) :
    (registerAll MetricRegistry.new reqs).2 = okIds 0 reqs.length
  ∧ (∀ j : Nat, j < reqs.length →
        (registerAll MetricRegistry.new reqs).2.get? j = some (Except.ok ⟨j⟩))
  ∧ (registerAll MetricRegistry.new reqs).1.len = reqs.length
  ∧ (MetricRegistry.new.create_metric "cpu" WrappedMeasurementType.U64
        units.Unit.Second "t").2 = Except.ok ⟨0⟩
  ∧ ((MetricRegistry.new.create_metric "cpu" WrappedMeasurementType.U64
        units.Unit.Second "t").1.create_metric "cpu" WrappedMeasurementType.F64
        units.Unit.Unity "").2
      = Except.error (MetricCreationError.new
          ("A metric with this name already exist: " ++ "cpu"))
  ∧ ((MetricRegistry.new.create_metric "cpu" WrappedMeasurementType.U64
        units.Unit.Second "t").1.create_metric "cpu" WrappedMeasurementType.F64
        units.Unit.Unity "").1.len = 1 := by
  have hcan := registerAll_canonical reqs [] (by simpa using hnd)
  have hnew : registryOf ([] : List MetricRequest) = MetricRegistry.new := rfl
  rw [hnew] at hcan
  simp only [List.nil_append, List.length_nil] at hcan
  refine ⟨?_, ?_, ?_, rfl, rfl, rfl⟩
  · rw [hcan]
  · intro j hj
    rw [hcan]
    have hg := okIds_get? reqs.length 0 j hj
    rw [Nat.zero_add] at hg
    exact hg
  · rw [hcan]
    show (idsMapOf reqs 0).length = reqs.length
    exact idsMapOf_length reqs 0

theorem claim_dense_ids_witness :
    (registerAll MetricRegistry.new [reqCpu, reqMem]).2
      = okIds 0 ([reqCpu, reqMem] : List MetricRequest).length
  ∧ (∀ j : Nat, j < ([reqCpu, reqMem] : List MetricRequest).length →
        (registerAll MetricRegistry.new [reqCpu, reqMem]).2.get? j
          = some (Except.ok ⟨j⟩))
  ∧ (registerAll MetricRegistry.new [reqCpu, reqMem]).1.len
      = ([reqCpu, reqMem] : List MetricRequest).length
  ∧ (MetricRegistry.new.create_metric "cpu" WrappedMeasurementType.U64
        units.Unit.Second "t").2 = Except.ok ⟨0⟩
  ∧ ((MetricRegistry.new.create_metric "cpu" WrappedMeasurementType.U64
        units.Unit.Second "t").1.create_metric "cpu" WrappedMeasurementType.F64
        units.Unit.Unity "").2
      = Except.error (MetricCreationError.new
          ("A metric with this name already exist: " ++ "cpu"))
  ∧ ((MetricRegistry.new.create_metric "cpu" WrappedMeasurementType.U64
        units.Unit.Second "t").1.create_metric "cpu" WrappedMeasurementType.F64
        units.Unit.Unity "").1.len = 1 :=
  claim_dense_ids [reqCpu, reqMem] (by decide)

/-- C10: every registry reachable from `new` through `create_metric`
calls keeps both maps the same size, maps every indexed name to a stored
descriptor whose `name` and `id` fields agree with the index entry, and
resolves a registered name identically through `with_name` and
`with_id`. -/
theorem claim_registry_invariant (r : MetricRegistry) (h : Reachable r) :
    r.metrics_by_name.length = r.metrics_by_id.length
  ∧ (∀ p ∈ r.metrics_by_name, ∃ m : Metric,
        lookupA r.metrics_by_id p.2 = some m ∧ m.name = p.1 ∧ m.id = p.2)
  ∧ (∀ (name : String) (id : UntypedMetricId),
        lookupA r.metrics_by_name name = some id → r.with_name name = r.with_id id) := by
  obtain ⟨reqs, hnd, rfl⟩ := reachable_canonical r h
  refine ⟨?_, ?_, ?_⟩
  · show (namesMapOf reqs 0).length = (idsMapOf reqs 0).length
    rw [namesMapOf_length, idsMapOf_length]
  · intro p hp
    have hp' : p ∈ namesMapOf reqs 0 := hp
    obtain ⟨j, hj, rfl⟩ := mem_namesMapOf reqs 0 p hp'
    exact ⟨mkMetric (0 + j) (reqs.get ⟨j, hj⟩), lookupA_idsMapOf_get reqs 0 j hj, rfl, rfl⟩
  · intro name id hlook
    have hlook' : lookupA (namesMapOf reqs 0) name = some id := hlook
    show (lookupA (namesMapOf reqs 0) name).bind (fun i => lookupA (idsMapOf reqs 0) i)
        = (registryOf reqs).with_id id
    rw [hlook']
    rfl

/-- The registry after one successful creation of `cpu`, used as a
concrete reachable state. -/
def regCpuOnce : MetricRegistry :=
  (MetricRegistry.new.create_metric "cpu" WrappedMeasurementType.U64
    units.Unit.Second "t").1

theorem claim_registry_invariant_witness :
    regCpuOnce.metrics_by_name.length = regCpuOnce.metrics_by_id.length
  ∧ (∀ p ∈ regCpuOnce.metrics_by_name, ∃ m : Metric,
        lookupA regCpuOnce.metrics_by_id p.2 = some m ∧ m.name = p.1 ∧ m.id = p.2)
  ∧ (∀ (name : String) (id : UntypedMetricId),
        lookupA regCpuOnce.metrics_by_name name = some id →
          regCpuOnce.with_name name = regCpuOnce.with_id id) :=
  claim_registry_invariant regCpuOnce
    (Reachable.step MetricRegistry.new "cpu" WrappedMeasurementType.U64
      units.Unit.Second "t" Reachable.base)

/-- C6: every point pushed to the accumulator during one invocation of
`K8SProbe::poll` carries exactly the timestamp argument of that
invocation. -/
theorem claim_poll_timestamp (p : K8SProbe)
    (gather : CgroupV2MetricFile → Except PollError CgroupV2Metric) (ts : Timestamp) :
    ∀ pt ∈ (p.poll gather ts).2.1, pt.timestamp = ts := by
  intro pt hpt
  exact pollLoop_timestamp p.metrics gather ts p.metric_and_counter pt hpt

/-- A probe with one cgroup file whose three counters hold a previous
sample. -/
def probeOne : K8SProbe :=
  { metrics := { time_used_tot := 0, time_used_user_mode := 1, time_used_system_mode := 2 },
    metric_and_counter :=
      [({ path := "cg" }, { max_value := 100, previous := some 0 },
        { max_value := 100, previous := some 0 }, { max_value := 100, previous := some 0 })] }

/-- A read function producing one fixed parsed sample. -/
def gatherOne : CgroupV2MetricFile → Except PollError CgroupV2Metric :=
  fun _ => Except.ok
    { name := "pod1", time_used_tot := 5, time_used_user_mode := 6,
      time_used_system_mode := 7 }

theorem claim_poll_timestamp_witness :
    ({ timestamp := 42, metric := 0, resource := Resource.LocalMachine,
       consumer := ResourceConsumer.ControlGroup "cg", value := 5,
       attributes := [("pod", AttributeValue.String "pod1")] } : MeasurementPoint).timestamp
      = 42 :=
  claim_poll_timestamp probeOne gatherOne 42 _ (by decide)

/-- C7: a poll over counters that all lack a previous sample sees
`FirstTime` from every counter update, pushes zero points, and still
returns success. -/
theorem claim_first_poll_zero_points (p : K8SProbe)
    (gather : CgroupV2MetricFile → Except PollError CgroupV2Metric) (ts : Timestamp)
    (hfresh : ∀ e ∈ p.metric_and_counter,
        e.2.1.previous = none ∧ e.2.2.1.previous = none ∧ e.2.2.2.previous = none)
    (hok : ∀ e ∈ p.metric_and_counter, ∃ m, gather e.1 = Except.ok m) :
    (∀ (c : CounterDiff) (v : Nat), c.previous = none →
        (c.update v).2 = CounterDiffUpdate.FirstTime)
  ∧ (p.poll gather ts).2.1 = [] ∧ (p.poll gather ts).2.2 = none := by
  have hmain := pollLoop_fresh p.metrics gather ts p.metric_and_counter hfresh hok
  exact ⟨fun c v h => by rw [counterDiff_update_fresh c v h], hmain.1, hmain.2⟩

/-- A probe built by `K8SProbe::new`, so all counters are fresh. -/
def probeFresh : K8SProbe :=
  K8SProbe.new
    { time_used_tot := 0, time_used_user_mode := 1, time_used_system_mode := 2 }
    [{ path := "cg" }]

theorem claim_first_poll_zero_points_witness :
    (∀ (c : CounterDiff) (v : Nat), c.previous = none →
        (c.update v).2 = CounterDiffUpdate.FirstTime)
  ∧ (probeFresh.poll gatherOne 42).2.1 = []
  ∧ (probeFresh.poll gatherOne 42).2.2 = none :=
  claim_first_poll_zero_points probeFresh gatherOne 42 (by decide)
    (fun e he => ⟨{ name := "pod1", time_used_tot := 5, time_used_user_mode := 6,
                    time_used_system_mode := 7 }, rfl⟩)

/-- C8: the element registry appends each added element, paired with its
plugin name, at the end of the matching sequence, removes nothing, and
each count equals the number of corresponding `add_*` calls since
`new`. -/
theorem claim_element_registry_order {S T O : Type} (ops : List (ElemOp S T O)) :
    (∀ (r : ElementRegistry S T O) (p : String) (s : S),
        r.add_source p s = { r with sources := r.sources ++ [(s, p)] })
  ∧ (∀ (r : ElementRegistry S T O) (p : String) (t : T),
        r.add_transform p t
          = { r with transforms := r.transforms ++ [{ transform := t, plugin_name := p }] })
  ∧ (∀ (r : ElementRegistry S T O) (p : String) (o : O),
        r.add_output p o
          = { r with outputs := r.outputs ++ [{ output := o, plugin_name := p }] })
  ∧ (applyOps (ElementRegistry.new S T O) ops).sources = sourceEntries ops
  ∧ (applyOps (ElementRegistry.new S T O) ops).transforms = transformEntries ops
  ∧ (applyOps (ElementRegistry.new S T O) ops).outputs = outputEntries ops
  ∧ (applyOps (ElementRegistry.new S T O) ops).source_count
      = (ops.filter (fun op => op.isSource)).length
  ∧ (applyOps (ElementRegistry.new S T O) ops).transform_count
      = (ops.filter (fun op => op.isTransform)).length
  ∧ (applyOps (ElementRegistry.new S T O) ops).output_count
      = (ops.filter (fun op => op.isOutput)).length := by
  have he := applyOps_entries ops (ElementRegistry.new S T O)
  have hl := entries_length ops
  refine ⟨fun r p s => rfl, fun r p t => rfl, fun r p o => rfl,
    he.1, he.2.1, he.2.2, ?_, ?_, ?_⟩
  · show (applyOps (ElementRegistry.new S T O) ops).sources.length = _
    rw [he.1]
    exact hl.1
  · show (applyOps (ElementRegistry.new S T O) ops).transforms.length = _
    rw [he.2.1]
    exact hl.2.1
  · show (applyOps (ElementRegistry.new S T O) ops).outputs.length = _
    rw [he.2.2]
    exact hl.2.2
